import Mathlib

/-!
Shallow embedding of `bayespy/inference/vmp/nodes/dirichlet.py` and proofs
about its Dirichlet-distribution formulas.

Numbers are modelled as rationals.  The transcendental library functions the
module imports (`scipy.special.gammaln`, `scipy.special.psi`,
`scipy.special.polygamma(1, ·)`, `np.log`) are not part of the repository and
are kept abstract as a bundle of function parameters (`SpecialFns`): every
theorem below is parametric in them, so it captures exactly the arithmetic
structure the Python code builds on top of those library calls.

numpy arrays appear in the module with dimensionality 0 (invalid scalar
inputs), 1 (a single concentration/probability vector) and 2 (a batch of
vectors, the leading axis being a batch axis); `NPArray` covers those three
shapes.  All reductions in the source are along the trailing axis
(`axis=-1`), with or without `keepdims=True`, and the only broadcasting that
occurs is between an array and its own trailing-axis reduction with
`keepdims=True`; the helpers below implement precisely these patterns.
-/

namespace BayesPy

/-- Python exception kinds raised by the Dirichlet module: `ValueError`
(invalid-argument kind) and `NotImplementedError` (unsupported-operation
kind). -/
inductive NPError where
  | valueError (msg : String)
  | notImplementedError
  deriving DecidableEq, Repr

/-- numpy arrays of dimensionality 0, 1 or 2 with rational entries. -/
inductive NPArray where
  | scalar (x : ℚ)
  | vec (xs : List ℚ)
  | mat (xss : List (List ℚ))
  deriving DecidableEq, Repr

namespace NPArray

/-- `np.ndim`. -/
def ndim : NPArray → Nat
  | scalar _ => 0
  | vec _ => 1
  | mat _ => 2

/-- All entries of the array, flattened (used for `np.any`-style predicates,
which inspect every element regardless of shape). -/
def entries : NPArray → List ℚ
  | scalar x => [x]
  | vec xs => xs
  | mat xss => xss.flatten

/-- `np.any(pred(a))` for an element-wise predicate. -/
def anyEntry (p : ℚ → Bool) (a : NPArray) : Bool :=
  a.entries.any p

/-- Element-wise application of a unary function (numpy ufunc). -/
def map (f : ℚ → ℚ) : NPArray → NPArray
  | scalar x => scalar (f x)
  | vec xs => vec (xs.map f)
  | mat xss => mat (xss.map (fun r => r.map f))

/-- `np.sum(a, axis=-1)`: the trailing axis is reduced away.  On a 0-d array
numpy would raise; the module only applies it after a `ndim >= 1` check, so
the `scalar` case is arbitrary (identity). -/
def sumLast : NPArray → NPArray
  | scalar x => scalar x
  | vec xs => scalar xs.sum
  | mat xss => vec (xss.map List.sum)

/-- `np.sum(a, axis=-1, keepdims=True)`: the trailing axis is reduced to
length one. -/
def sumLastKeep : NPArray → NPArray
  | scalar x => scalar x
  | vec xs => vec [xs.sum]
  | mat xss => mat (xss.map (fun r => [r.sum]))

/-- One row of a binary operation against a length-one (`keepdims`) row:
numpy broadcasting of shape `(K,)` against `(1,)`. -/
def rowOp (f : ℚ → ℚ → ℚ) (row crow : List ℚ) : List ℚ :=
  match crow with
  | [c] => row.map (fun x => f x c)
  | _ => row

/-- Binary operation `f a b` where `b` is the `keepdims=True` trailing-axis
reduction of an array shaped like `a` (the only broadcasting pattern in the
module).  Shapes that never occur default to the left operand. -/
def broadcastLast (f : ℚ → ℚ → ℚ) : NPArray → NPArray → NPArray
  | vec xs, vec [c] => vec (xs.map (fun x => f x c))
  | mat xss, mat css => mat (List.zipWith (rowOp f) xss css)
  | a, _ => a

/-- Element-wise binary operation on equal-shaped arrays. -/
def zipApp (f : ℚ → ℚ → ℚ) : NPArray → NPArray → NPArray
  | scalar x, scalar y => scalar (f x y)
  | vec xs, vec ys => vec (List.zipWith f xs ys)
  | mat xss, mat yss => mat (List.zipWith (List.zipWith f) xss yss)
  | a, _ => a

end NPArray

/-- `np.allclose` default absolute tolerance `atol = 1e-08`. -/
def np_atol : ℚ := 1 / 100000000

/-- `np.allclose` default relative tolerance `rtol = 1e-05`. -/
def np_rtol : ℚ := 1 / 100000

/-- `np.allclose(a, 1.0)` with the default tolerances:
every entry `x` satisfies `|x - 1| <= atol + rtol * |1|`. -/
def NPArray.allcloseOne (a : NPArray) : Bool :=
  a.entries.all (fun x => decide (|x - 1| ≤ np_atol + np_rtol * 1))

/-- The transcendental library functions used by the module
(`scipy.special.gammaln`, digamma `scipy.special.psi`, trigamma
`scipy.special.polygamma(1, ·)`, `np.log`), kept abstract. -/
structure SpecialFns where
  gammaln : ℚ → ℚ
  psi : ℚ → ℚ
  polygamma1 : ℚ → ℚ
  log : ℚ → ℚ

/-- A concrete instantiation of the abstract library functions, used to
evaluate the embedding on concrete inputs. -/
def idFns : SpecialFns :=
  { gammaln := id, psi := id, polygamma1 := id, log := id }

namespace DirichletPriorMoments

/-- `DirichletPriorMoments.compute_fixed_moments(alpha)`:
validates `ndim(alpha) >= 1` and `alpha >= 0` element-wise, then returns
`[alpha, z]` with `z = gammaln(sum(alpha, -1)) - sum(gammaln(alpha), -1)`. -/
def compute_fixed_moments (S : SpecialFns) (alpha : NPArray) :
    Except NPError (List NPArray) :=
  if alpha.ndim < 1 then
    .error (.valueError "The prior sample sizes must be a vector")
  else if alpha.anyEntry (fun x => decide (x < 0)) then
    .error (.valueError "The prior sample sizes must be non-negative")
  else
    let gammaln_sum := alpha.sumLast.map S.gammaln
    let sum_gammaln := (alpha.map S.gammaln).sumLast
    let z := NPArray.zipApp (fun a b => a - b) gammaln_sum sum_gammaln
    .ok [alpha, z]

end DirichletPriorMoments

namespace DirichletMoments

/-- `DirichletMoments.compute_fixed_moments(p)`:
validates `ndim(p) >= 1`, `0 <= p <= 1` element-wise and
`np.allclose(sum(p, -1), 1.0)`, then normalizes `p` by its trailing-axis sum
and returns the log-probabilities `[log p]`. -/
def compute_fixed_moments (S : SpecialFns) (p : NPArray) :
    Except NPError (List NPArray) :=
  if p.ndim < 1 then
    .error (.valueError "Probabilities must be given as a vector")
  else if p.anyEntry (fun x => decide (x < 0)) ||
          p.anyEntry (fun x => decide (1 < x)) then
    .error (.valueError "Probabilities must be in range [0,1]")
  else if ! p.sumLast.allcloseOne then
    .error (.valueError "Probabilities must sum to one")
  else
    let p2 := NPArray.broadcastLast (fun a b => a / b) p p.sumLastKeep
    let logp := p2.map S.log
    .ok [logp]

end DirichletMoments

namespace DirichletDistribution

/-- `DirichletDistribution.compute_message_to_parent`: unconditionally raises
`NotImplementedError`, for any types and values of the arguments. -/
def compute_message_to_parent {P I U V : Type}
    (parent : P) (index : I) (u_self : U) (u_alpha : V) :
    Except NPError (List NPArray) :=
  .error .notImplementedError

/-- `DirichletDistribution.compute_phi_from_parents(u_alpha)`:
returns `[u_alpha[0]]`.  The module only ever calls it on a moment list of
length >= 2, so the default for an empty list is never exercised. -/
def compute_phi_from_parents (u_alpha : List NPArray) : List NPArray :=
  [u_alpha.headD (NPArray.vec [])]

/-- `DirichletDistribution.compute_moments_and_cgf(phi)`:
raises `ValueError` when any entry of `phi` is non-positive, otherwise
returns `(u, g)` with `u = [psi(phi[0]) - psi(sum(phi[0], -1, keepdims))]`
and `g = gammaln(sum(phi[0], -1)) - sum(gammaln(phi[0]), -1)`. -/
def compute_moments_and_cgf (S : SpecialFns) (phi : List NPArray) :
    Except NPError (List NPArray × NPArray) :=
  if phi.any (fun a => a.anyEntry (fun x => decide (x ≤ 0))) then
    .error (.valueError "Natural parameters should be positive")
  else
    let phi0 := phi.headD (NPArray.vec [])
    let sum_gammaln := (phi0.map S.gammaln).sumLast
    let gammaln_sum := phi0.sumLast.map S.gammaln
    let psi_sum := phi0.sumLastKeep.map S.psi
    let u0 := NPArray.broadcastLast (fun a b => a - b) (phi0.map S.psi) psi_sum
    let g := NPArray.zipApp (fun a b => a - b) gammaln_sum sum_gammaln
    .ok ([u0], g)

/-- `DirichletDistribution.compute_cgf_from_parents(u_alpha)`:
returns `u_alpha[1]`. -/
def compute_cgf_from_parents (u_alpha : List NPArray) : NPArray :=
  u_alpha.getD 1 (NPArray.vec [])

/-- `DirichletDistribution.compute_fixed_moments_and_f(p)`:
same validation and normalization as
`DirichletMoments.compute_fixed_moments`, returning
`(u, f) = ([log p], -sum(log p, -1))`. -/
def compute_fixed_moments_and_f (S : SpecialFns) (p : NPArray) :
    Except NPError (List NPArray × NPArray) :=
  if p.ndim < 1 then
    .error (.valueError "Probabilities must be given as a vector")
  else if p.anyEntry (fun x => decide (x < 0)) ||
          p.anyEntry (fun x => decide (1 < x)) then
    .error (.valueError "Probabilities must be in range [0,1]")
  else if ! p.sumLast.allcloseOne then
    .error (.valueError "Probabilities must sum to one")
  else
    let p2 := NPArray.broadcastLast (fun a b => a / b) p p.sumLastKeep
    let logp := p2.map S.log
    let f := logp.sumLast.map (fun x => -x)
    .ok ([logp], f)

/-- `DirichletDistribution.compute_gradient(g, u, phi)`:
no validation; returns `[d0]` with
`d0 = g[0] * (polygamma(1, phi[0]) - polygamma(1, sum(phi[0], -1, keepdims)))`.
The argument `u` is unused, as in the source. -/
def compute_gradient (S : SpecialFns)
    (g : List NPArray) (u : List NPArray) (phi : List NPArray) :
    Except NPError (List NPArray) :=
  let phi0 := phi.headD (NPArray.vec [])
  let g0 := g.headD (NPArray.vec [])
  let sum_phi := phi0.sumLastKeep
  let d0 := NPArray.zipApp (fun a b => a * b) g0
    (NPArray.broadcastLast (fun a b => a - b)
      (phi0.map S.polygamma1) (sum_phi.map S.polygamma1))
  .ok [d0]

end DirichletDistribution

/-- A store of numpy array buffers: contents indexed by buffer id, together
with the next fresh id.  Live buffers have ids below `next`. -/
structure Store where
  mem : Nat → NPArray
  next : Nat

/-- Allocate a fresh buffer holding `a`.  Every numpy arithmetic call in the
module (`p / s`, `np.log(p)`, `np.sum(...)`) writes its result into a freshly
allocated buffer; the module contains no in-place update of an argument. -/
def Store.alloc (s : Store) (a : NPArray) : Nat × Store :=
  (s.next, ⟨fun n => if n = s.next then a else s.mem n, s.next + 1⟩)

/-- Store-passing version of `DirichletMoments.compute_fixed_moments`: the
caller's array is the buffer `pid`; `np.asanyarray` on an array returns the
same buffer, the three checks only read it, and the normalization
`p = p / np.sum(p, axis=-1, keepdims=True)` divides into a fresh buffer and
rebinds the local name, as does `np.log(p)`. -/
def DirichletMoments.compute_fixed_moments_store (S : SpecialFns)
    (s : Store) (pid : Nat) : Except NPError (List Nat) × Store :=
  let p := s.mem pid
  if p.ndim < 1 then
    (.error (.valueError "Probabilities must be given as a vector"), s)
  else if p.anyEntry (fun x => decide (x < 0)) ||
          p.anyEntry (fun x => decide (1 < x)) then
    (.error (.valueError "Probabilities must be in range [0,1]"), s)
  else if ! p.sumLast.allcloseOne then
    (.error (.valueError "Probabilities must sum to one"), s)
  else
    let a1 := s.alloc (NPArray.broadcastLast (fun a b => a / b) p p.sumLastKeep)
    let a2 := a1.2.alloc ((a1.2.mem a1.1).map S.log)
    (.ok [a2.1], a2.2)

/-- Store-passing version of
`DirichletDistribution.compute_fixed_moments_and_f`, analogous to
`DirichletMoments.compute_fixed_moments_store`; the reduction
`f = -np.sum(logp, axis=-1)` also lands in a fresh buffer. -/
def DirichletDistribution.compute_fixed_moments_and_f_store (S : SpecialFns)
    (s : Store) (pid : Nat) : Except NPError (List Nat × Nat) × Store :=
  let p := s.mem pid
  if p.ndim < 1 then
    (.error (.valueError "Probabilities must be given as a vector"), s)
  else if p.anyEntry (fun x => decide (x < 0)) ||
          p.anyEntry (fun x => decide (1 < x)) then
    (.error (.valueError "Probabilities must be in range [0,1]"), s)
  else if ! p.sumLast.allcloseOne then
    (.error (.valueError "Probabilities must sum to one"), s)
  else
    let a1 := s.alloc (NPArray.broadcastLast (fun a b => a / b) p p.sumLastKeep)
    let a2 := a1.2.alloc ((a1.2.mem a1.1).map S.log)
    let a3 := a2.2.alloc ((a2.2.mem a2.1).sumLast.map (fun x => -x))
    (.ok ([a2.1], a3.1), a3.2)

/-- `List.zipWith` of two maps of the same list is a map. -/
theorem zipWith_map_both {α β γ δ : Type} (f : β → γ → δ) (g : α → β) (h : α → γ) :
    ∀ l : List α, List.zipWith f (l.map g) (l.map h) = l.map (fun a => f (g a) (h a))
  | [] => rfl
  | a :: l => by
    simp only [List.map_cons, List.zipWith_cons_cons, zipWith_map_both f g h l]

/-- `List.zipWith` against a map on the right collapses into the function. -/
theorem zipWith_map_snd {α β γ δ : Type} (f : α → γ → δ) (h : β → γ) :
    ∀ (l : List α) (l2 : List β),
      List.zipWith f l (l2.map h) = List.zipWith (fun a b => f a (h b)) l l2
  | [], _ => by simp
  | _ :: _, [] => by simp
  | a :: l, b :: l2 => by
    simp only [List.map_cons, List.zipWith_cons_cons, zipWith_map_snd f h l l2]

/-- `List.zipWith` against a map on the left collapses into the function. -/
theorem zipWith_map_fst {α β γ δ : Type} (f : γ → β → δ) (g : α → γ) :
    ∀ (l : List α) (l2 : List β),
      List.zipWith f (l.map g) l2 = List.zipWith (fun a b => f (g a) b) l l2
  | [], _ => by simp
  | _ :: _, [] => by simp
  | a :: l, b :: l2 => by
    simp only [List.map_cons, List.zipWith_cons_cons, zipWith_map_fst f g l l2]

/-- `List.zipWith` of a list with itself is a map. -/
theorem zipWith_self_eq_map {α β : Type} (f : α → α → β) :
    ∀ l : List α, List.zipWith f l l = l.map (fun a => f a a)
  | [] => rfl
  | a :: l => by
    simp only [List.zipWith_cons_cons, List.map_cons, zipWith_self_eq_map f l]

/-- Claim C1: for `phi = [phi0]` with all entries of `phi0` strictly
positive, `compute_moments_and_cgf` returns `(u, g)` with
`u = [psi(phi0) - psi(sum_k phi0_k)]` element-wise (the trailing-axis sum
broadcast back) and `g = log Gamma(sum_k phi0_k) - sum_k log Gamma(phi0_k)`;
for a 2-d `phi0` the leading batch axis is preserved, each row being treated
independently. -/
theorem compute_moments_and_cgf_spec (S : SpecialFns)
    (xs : List ℚ) (xss : List (List ℚ))
    (hv : ∀ x ∈ xs, 0 < x) (hm : ∀ r ∈ xss, ∀ x ∈ r, 0 < x) :
    DirichletDistribution.compute_moments_and_cgf S [NPArray.vec xs] =
      .ok ([NPArray.vec (xs.map (fun x => S.psi x - S.psi xs.sum))],
        NPArray.scalar (S.gammaln xs.sum - (xs.map S.gammaln).sum)) ∧
    DirichletDistribution.compute_moments_and_cgf S [NPArray.mat xss] =
      .ok ([NPArray.mat
          (xss.map (fun r => r.map (fun x => S.psi x - S.psi r.sum)))],
        NPArray.vec (xss.map (fun r => S.gammaln r.sum - (r.map S.gammaln).sum))) := by
  constructor
  · have hany : (List.any [NPArray.vec xs]
        (fun a => a.anyEntry (fun x => decide (x ≤ 0)))) = false := by
      simp [NPArray.anyEntry, NPArray.entries]
      intro x hx
      exact hv x hx
    rw [DirichletDistribution.compute_moments_and_cgf, if_neg (by simp [hany])]
    simp [NPArray.map, NPArray.sumLast, NPArray.sumLastKeep,
      NPArray.broadcastLast, NPArray.zipApp, List.map_map, Function.comp]
  · have hany : (List.any [NPArray.mat xss]
        (fun a => a.anyEntry (fun x => decide (x ≤ 0)))) = false := by
      simp [NPArray.anyEntry, NPArray.entries]
      intro r hr x hx
      exact hm r hr x hx
    rw [DirichletDistribution.compute_moments_and_cgf, if_neg (by simp [hany])]
    simp [NPArray.map, NPArray.sumLast, NPArray.sumLastKeep,
      NPArray.broadcastLast, NPArray.zipApp, List.map_map, Function.comp,
      zipWith_map_both, NPArray.rowOp]

/-- Witness for C1 at `phi0 = [1, 2]` and batch `[[1, 2]]`, the abstract
library functions instantiated with the identity. -/
theorem compute_moments_and_cgf_spec_witness :
    DirichletDistribution.compute_moments_and_cgf idFns [NPArray.vec [1, 2]] =
      .ok ([NPArray.vec [-2, -1]], NPArray.scalar 0) ∧
    DirichletDistribution.compute_moments_and_cgf idFns [NPArray.mat [[1, 2]]] =
      .ok ([NPArray.mat [[-2, -1]]], NPArray.vec [0]) := by
  have h := compute_moments_and_cgf_spec idFns [1, 2] [[1, 2]]
    (by norm_num) (by norm_num)
  exact ⟨h.1.trans (by norm_num [idFns]), h.2.trans (by norm_num [idFns])⟩

/-- Claim C2: `compute_moments_and_cgf` fails, with the invalid-argument
`ValueError`, exactly when some entry of `phi[0]` is non-positive; in
particular it fails for `phi[0] = [0, 2, 3]`.  In the failure case the
returned value is `Except.error`, which carries no result (and the
embedding is a pure function of its arguments, so nothing is changed). -/
theorem compute_moments_and_cgf_error_iff (S : SpecialFns) (xs : List ℚ) :
    (DirichletDistribution.compute_moments_and_cgf S [NPArray.vec xs] =
        .error (NPError.valueError "Natural parameters should be positive") ↔
      ∃ x ∈ xs, x ≤ 0) ∧
    DirichletDistribution.compute_moments_and_cgf S [NPArray.vec [0, 2, 3]] =
      .error (NPError.valueError "Natural parameters should be positive") := by
  have key : ∀ ys : List ℚ,
      (DirichletDistribution.compute_moments_and_cgf S [NPArray.vec ys] =
        .error (NPError.valueError "Natural parameters should be positive") ↔
      ∃ x ∈ ys, x ≤ 0) := by
    intro ys
    rw [DirichletDistribution.compute_moments_and_cgf]
    by_cases h : ∃ x ∈ ys, x ≤ 0
    · rw [if_pos (by simp [NPArray.anyEntry, NPArray.entries]; exact h)]
      exact iff_of_true rfl h
    · rw [if_neg (by simp [NPArray.anyEntry, NPArray.entries]; push_neg at h; exact h)]
      simp [h]
  exact ⟨key xs, (key [0, 2, 3]).mpr ⟨0, by simp, le_refl 0⟩⟩

/-- Claim C3: for every valid concentration array (dimensionality at least
1, all entries non-negative), `compute_phi_from_parents` applied to
`DirichletPriorMoments.compute_fixed_moments alpha` recovers `[alpha]`, and
`compute_phi_from_parents` returns the parent's first moment unchanged. -/
theorem compute_phi_from_parents_round_trip (S : SpecialFns) (a : NPArray)
    (h1 : 1 ≤ a.ndim) (h2 : ∀ x ∈ a.entries, 0 ≤ x) :
    (∃ u, DirichletPriorMoments.compute_fixed_moments S a = .ok u ∧
      DirichletDistribution.compute_phi_from_parents u = [a]) ∧
    ∀ (u0 : NPArray) (rest : List NPArray),
      DirichletDistribution.compute_phi_from_parents (u0 :: rest) = [u0] := by
  refine ⟨?_, fun u0 rest => rfl⟩
  have hnd : ¬ a.ndim < 1 := by omega
  have hneg : ¬ (a.anyEntry (fun x => decide (x < 0)) = true) := by
    simp [NPArray.anyEntry]
    exact h2
  refine ⟨[a, NPArray.zipApp (fun u v => u - v)
    (a.sumLast.map S.gammaln) ((a.map S.gammaln).sumLast)], ?_, rfl⟩
  rw [DirichletPriorMoments.compute_fixed_moments, if_neg hnd, if_neg hneg]

/-- Witness for C3 at `alpha = [1, 2]`. -/
theorem compute_phi_from_parents_round_trip_witness :
    (∃ u, DirichletPriorMoments.compute_fixed_moments idFns (NPArray.vec [1, 2]) = .ok u ∧
      DirichletDistribution.compute_phi_from_parents u = [NPArray.vec [1, 2]]) ∧
    ∀ (u0 : NPArray) (rest : List NPArray),
      DirichletDistribution.compute_phi_from_parents (u0 :: rest) = [u0] :=
  compute_phi_from_parents_round_trip idFns (NPArray.vec [1, 2])
    (by decide) (by decide)

/-- Claim C4: for a probability vector `p` with entries in `(0, 1]` whose
sum is within the `np.allclose` tolerance of 1,
`compute_fixed_moments_and_f p` returns `(u, f)` with `u = [log p']` for
`p'` the renormalization of `p` by its trailing-axis sum, and
`f = -sum_k log p'_k`. -/
theorem compute_fixed_moments_and_f_spec (S : SpecialFns) (xs : List ℚ)
    (h1 : ∀ x ∈ xs, 0 < x ∧ x ≤ 1)
    (h2 : |xs.sum - 1| ≤ np_atol + np_rtol) :
    DirichletDistribution.compute_fixed_moments_and_f S (NPArray.vec xs) =
      .ok ([NPArray.vec (xs.map (fun x => S.log (x / xs.sum)))],
        NPArray.scalar (-(xs.map (fun x => S.log (x / xs.sum))).sum)) := by
  rw [DirichletDistribution.compute_fixed_moments_and_f]
  rw [if_neg (by simp [NPArray.ndim])]
  rw [if_neg (by
    simp [NPArray.anyEntry, NPArray.entries]
    exact ⟨fun x hx => le_of_lt (h1 x hx).1, fun x hx => (h1 x hx).2⟩)]
  rw [if_neg (by
    simp [NPArray.allcloseOne, NPArray.sumLast, NPArray.entries]
    simpa using h2)]
  simp [NPArray.broadcastLast, NPArray.sumLastKeep, NPArray.map,
    NPArray.sumLast, List.map_map, Function.comp_def]

/-- Witness for C4 at `p = [1/2, 1/2]`. -/
theorem compute_fixed_moments_and_f_spec_witness :
    DirichletDistribution.compute_fixed_moments_and_f idFns
        (NPArray.vec [1/2, 1/2]) =
      .ok ([NPArray.vec [1/2, 1/2]], NPArray.scalar (-1)) :=
  (compute_fixed_moments_and_f_spec idFns [1/2, 1/2]
    (by norm_num) (by norm_num [np_atol, np_rtol])).trans
    (by norm_num [idFns])

/-- Claim C6: `DirichletPriorMoments.compute_fixed_moments alpha` fails with
`ValueError` exactly when the input has dimensionality below 1 or some entry
is negative; otherwise it returns `[alpha, z]` with
`z = log Gamma(sum_k alpha_k) - sum_k log Gamma(alpha_k)`, reduced along
the trailing axis only, the leading batch axis of a 2-d input being
preserved. -/
theorem prior_compute_fixed_moments_spec (S : SpecialFns) (a : NPArray) :
    ((∃ m, DirichletPriorMoments.compute_fixed_moments S a =
        .error (NPError.valueError m)) ↔
      (a.ndim < 1 ∨ ∃ x ∈ a.entries, x < 0)) ∧
    (∀ xs : List ℚ, (∀ x ∈ xs, 0 ≤ x) →
      DirichletPriorMoments.compute_fixed_moments S (NPArray.vec xs) =
        .ok [NPArray.vec xs,
          NPArray.scalar (S.gammaln xs.sum - (xs.map S.gammaln).sum)]) ∧
    (∀ xss : List (List ℚ), (∀ r ∈ xss, ∀ x ∈ r, 0 ≤ x) →
      DirichletPriorMoments.compute_fixed_moments S (NPArray.mat xss) =
        .ok [NPArray.mat xss,
          NPArray.vec (xss.map (fun r => S.gammaln r.sum - (r.map S.gammaln).sum))]) := by
  refine ⟨?_, ?_, ?_⟩
  · rw [DirichletPriorMoments.compute_fixed_moments]
    by_cases h1 : a.ndim < 1
    · rw [if_pos h1]
      exact iff_of_true ⟨_, rfl⟩ (Or.inl h1)
    · rw [if_neg h1]
      by_cases h2 : ∃ x ∈ a.entries, x < 0
      · rw [if_pos (by simp [NPArray.anyEntry]; exact h2)]
        exact iff_of_true ⟨_, rfl⟩ (Or.inr h2)
      · rw [if_neg (by simp [NPArray.anyEntry]; push_neg at h2; exact h2)]
        simp [h1, h2]
  · intro xs hxs
    rw [DirichletPriorMoments.compute_fixed_moments, if_neg (by simp [NPArray.ndim]),
      if_neg (by simp [NPArray.anyEntry, NPArray.entries]; exact hxs)]
    simp [NPArray.map, NPArray.sumLast, NPArray.zipApp]
  · intro xss hxss
    rw [DirichletPriorMoments.compute_fixed_moments, if_neg (by simp [NPArray.ndim]),
      if_neg (by simp [NPArray.anyEntry, NPArray.entries]; exact hxss)]
    simp [NPArray.map, NPArray.sumLast, NPArray.zipApp, List.map_map,
      Function.comp, zipWith_map_both]

/-- Witness for C6: a concrete success at `alpha = [1, 2]` extracted from
the specification theorem. -/
theorem prior_compute_fixed_moments_spec_witness :
    DirichletPriorMoments.compute_fixed_moments idFns (NPArray.vec [1, 2]) =
      .ok [NPArray.vec [1, 2], NPArray.scalar 0] :=
  ((prior_compute_fixed_moments_spec idFns (NPArray.vec [1, 2])).2.1
    [1, 2] (by norm_num)).trans (by norm_num [idFns])

/-- Claim C5: `DirichletMoments.compute_fixed_moments p` fails with
`ValueError` exactly when the dimensionality is below 1, or some entry lies
outside `[0, 1]`, or a trailing-axis sum is not within the `np.allclose`
tolerance (absolute `1e-8`, relative `1e-5`) of 1 — in particular it fails
for `p = [0.5, 0.4]`, for `p = [-0.1, 1.1]` and for a 0-dimensional
scalar — and otherwise it returns `[log p]` after renormalizing `p` by its
trailing-axis sum. -/
theorem moments_compute_fixed_moments_spec (S : SpecialFns) (a : NPArray) :
    ((∃ m, DirichletMoments.compute_fixed_moments S a =
        .error (NPError.valueError m)) ↔
      (a.ndim < 1 ∨ (∃ x ∈ a.entries, x < 0 ∨ 1 < x) ∨
        ∃ s ∈ a.sumLast.entries, ¬ |s - 1| ≤ np_atol + np_rtol)) ∧
    (∀ xs : List ℚ, (∀ x ∈ xs, 0 ≤ x ∧ x ≤ 1) →
      |xs.sum - 1| ≤ np_atol + np_rtol →
      DirichletMoments.compute_fixed_moments S (NPArray.vec xs) =
        .ok [NPArray.vec (xs.map (fun x => S.log (x / xs.sum)))]) ∧
    (∀ xss : List (List ℚ), (∀ r ∈ xss, ∀ x ∈ r, 0 ≤ x ∧ x ≤ 1) →
      (∀ r ∈ xss, |r.sum - 1| ≤ np_atol + np_rtol) →
      DirichletMoments.compute_fixed_moments S (NPArray.mat xss) =
        .ok [NPArray.mat
          (xss.map (fun r => r.map (fun x => S.log (x / r.sum))))]) ∧
    DirichletMoments.compute_fixed_moments S (NPArray.vec [1/2, 2/5]) =
      .error (NPError.valueError "Probabilities must sum to one") ∧
    DirichletMoments.compute_fixed_moments S (NPArray.vec [-1/10, 11/10]) =
      .error (NPError.valueError "Probabilities must be in range [0,1]") ∧
    DirichletMoments.compute_fixed_moments S (NPArray.scalar (1/2)) =
      .error (NPError.valueError "Probabilities must be given as a vector") := by
  refine ⟨?_, ?_, ?_, ?_, ?_, ?_⟩
  · rw [DirichletMoments.compute_fixed_moments]
    by_cases h1 : a.ndim < 1
    · rw [if_pos h1]
      exact iff_of_true ⟨_, rfl⟩ (Or.inl h1)
    · rw [if_neg h1]
      by_cases h2 : ∃ x ∈ a.entries, x < 0 ∨ 1 < x
      · rw [if_pos (by
          simp [NPArray.anyEntry]
          rcases h2 with ⟨x, hx, hlt | hgt⟩
          exacts [Or.inl ⟨x, hx, hlt⟩, Or.inr ⟨x, hx, hgt⟩])]
        exact iff_of_true ⟨_, rfl⟩ (Or.inr (Or.inl h2))
      · rw [if_neg (by
          simp [NPArray.anyEntry]
          push_neg at h2
          exact ⟨fun x hx => (h2 x hx).1, fun x hx => (h2 x hx).2⟩)]
        by_cases h3 : ∃ s ∈ a.sumLast.entries, ¬ |s - 1| ≤ np_atol + np_rtol
        · rw [if_pos (by
            simp [NPArray.allcloseOne]
            rcases h3 with ⟨s, hs, hno⟩
            exact ⟨s, hs, by simpa using hno⟩)]
          exact iff_of_true ⟨_, rfl⟩ (Or.inr (Or.inr h3))
        · have hcl : ¬ ((! a.sumLast.allcloseOne) = true) := by
            push_neg at h3
            simp [NPArray.allcloseOne]
            intro s hs
            simpa using h3 s hs
          rw [if_neg hcl]
          simp [h1, h2, h3]
          push_neg at h3
          exact h3
  · intro xs hxs hsum
    rw [DirichletMoments.compute_fixed_moments, if_neg (by simp [NPArray.ndim]),
      if_neg (by
        simp [NPArray.anyEntry, NPArray.entries]
        exact ⟨fun x hx => (hxs x hx).1, fun x hx => (hxs x hx).2⟩),
      if_neg (by
        simp [NPArray.allcloseOne, NPArray.sumLast, NPArray.entries]
        simpa using hsum)]
    simp [NPArray.broadcastLast, NPArray.sumLastKeep, NPArray.map,
      List.map_map, Function.comp_def]
  · intro xss hxss hsum
    rw [DirichletMoments.compute_fixed_moments, if_neg (by simp [NPArray.ndim]),
      if_neg (by
        simp [NPArray.anyEntry, NPArray.entries]
        exact ⟨fun r hr x hx => (hxss r hr x hx).1,
          fun r hr x hx => (hxss r hr x hx).2⟩),
      if_neg (by
        simp [NPArray.allcloseOne, NPArray.sumLast, NPArray.entries]
        intro r hr
        simpa using hsum r hr)]
    simp [NPArray.broadcastLast, NPArray.sumLastKeep, NPArray.map,
      List.map_map, Function.comp_def, zipWith_map_snd,
      zipWith_self_eq_map, NPArray.rowOp]
  · rw [DirichletMoments.compute_fixed_moments, if_neg (by simp [NPArray.ndim]),
      if_neg (by norm_num [NPArray.anyEntry, NPArray.entries]),
      if_pos (by norm_num [NPArray.allcloseOne, NPArray.sumLast,
        NPArray.entries, np_atol, np_rtol, abs_of_pos])]
  · rw [DirichletMoments.compute_fixed_moments, if_neg (by simp [NPArray.ndim]),
      if_pos (by norm_num [NPArray.anyEntry, NPArray.entries])]
  · rw [DirichletMoments.compute_fixed_moments, if_pos (by simp [NPArray.ndim])]

/-- Witness for C5: a concrete success at `p = [1/2, 1/2]` extracted from
the specification theorem. -/
theorem moments_compute_fixed_moments_spec_witness :
    DirichletMoments.compute_fixed_moments idFns (NPArray.vec [1/2, 1/2]) =
      .ok [NPArray.vec [1/2, 1/2]] :=
  ((moments_compute_fixed_moments_spec idFns (NPArray.vec [1/2, 1/2])).2.1
    [1/2, 1/2] (by norm_num) (by norm_num [np_atol, np_rtol])).trans
    (by norm_num [idFns])

/-- Claim C7: `compute_gradient g u phi` returns `[d0]` with
`d0 = g[0] * (trigamma(phi[0]) - trigamma(sum_k phi[0]_k))` element-wise,
the trailing-axis sum broadcast back (for a 2-d input row by row); in
particular for `K = 2` and `phi[0] = [1, 1]` it is the closed-form trigamma
difference times the input gradient. -/
theorem compute_gradient_spec (S : SpecialFns) (u : List NPArray)
    (g0 xs : List ℚ) (gss xss : List (List ℚ))
    (hlen : g0.length = xs.length)
    (hlen2 : List.Forall₂ (fun gr pr => gr.length = pr.length) gss xss) :
    DirichletDistribution.compute_gradient S [NPArray.vec g0] u [NPArray.vec xs] =
      .ok [NPArray.vec (List.zipWith
        (fun gi pi => gi * (S.polygamma1 pi - S.polygamma1 xs.sum)) g0 xs)] ∧
    DirichletDistribution.compute_gradient S [NPArray.mat gss] u [NPArray.mat xss] =
      .ok [NPArray.mat (List.zipWith
        (fun gr pr => List.zipWith
          (fun gi pi => gi * (S.polygamma1 pi - S.polygamma1 pr.sum)) gr pr)
        gss xss)] ∧
    ∀ c d : ℚ,
      DirichletDistribution.compute_gradient S [NPArray.vec [c, d]] u [NPArray.vec [1, 1]] =
        .ok [NPArray.vec [c * (S.polygamma1 1 - S.polygamma1 (1 + 1)),
          d * (S.polygamma1 1 - S.polygamma1 (1 + 1))]] := by
  refine ⟨?_, ?_, ?_⟩
  · rw [DirichletDistribution.compute_gradient]
    simp [NPArray.zipApp, NPArray.broadcastLast, NPArray.sumLastKeep,
      NPArray.map, List.map_map, Function.comp_def, zipWith_map_snd]
  · rw [DirichletDistribution.compute_gradient]
    simp [NPArray.zipApp, NPArray.broadcastLast, NPArray.sumLastKeep,
      NPArray.map, List.map_map, Function.comp_def, zipWith_map_fst,
      zipWith_self_eq_map, NPArray.rowOp, zipWith_map_snd]
  · intro c d
    rw [DirichletDistribution.compute_gradient]
    simp [NPArray.zipApp, NPArray.broadcastLast, NPArray.sumLastKeep,
      NPArray.map]

/-- Witness for C7 at `g = [[1, 2]]`, `phi = [[3, 4]]` and batched
`g = [[[1]]]`, `phi = [[[2]]]`. -/
theorem compute_gradient_spec_witness :
    DirichletDistribution.compute_gradient idFns [NPArray.vec [1, 2]] []
        [NPArray.vec [3, 4]] =
      .ok [NPArray.vec [-4, -6]] ∧
    DirichletDistribution.compute_gradient idFns [NPArray.mat [[1]]] []
        [NPArray.mat [[2]]] =
      .ok [NPArray.mat [[0]]] := by
  have h := compute_gradient_spec idFns [] [1, 2] [3, 4] [[1]] [[2]]
    (by norm_num) (by norm_num)
  exact ⟨h.1.trans (by norm_num [idFns]), h.2.1.trans (by norm_num [idFns])⟩

/-- Claim C8: `compute_message_to_parent` raises `NotImplementedError` for
every combination of inputs, of arbitrary types; it never returns a
value. -/
theorem compute_message_to_parent_spec {P I U V : Type}
    (parent : P) (index : I) (u_self : U) (u_alpha : V) :
    DirichletDistribution.compute_message_to_parent parent index u_self u_alpha =
      .error NPError.notImplementedError :=
  rfl

/-- Counterexample to claim C9 as stated: `compute_gradient` receives a
natural parameter whose first entry is negative yet does not fail — it
returns a computed result. -/
theorem compute_gradient_no_validation :
    DirichletDistribution.compute_gradient idFns [NPArray.vec [1, 1]] []
        [NPArray.vec [-1, 1]] =
      .ok [NPArray.vec [-1, 1]] := by
  rw [DirichletDistribution.compute_gradient]
  norm_num [NPArray.zipApp, NPArray.broadcastLast, NPArray.sumLastKeep,
    NPArray.map, idFns]

/-- Claim C9 (amended): the moment computations validate eagerly at their
boundary — `compute_moments_and_cgf` raises the invalid-argument
`ValueError` as soon as some entry of its natural parameter is
non-positive — but `compute_gradient` performs no validation: it returns a
result for every input, including natural parameters with non-positive
entries. -/
theorem eager_validation_amended (S : SpecialFns) (xs : List ℚ)
    (h : ∃ x ∈ xs, x ≤ 0) :
    DirichletDistribution.compute_moments_and_cgf S [NPArray.vec xs] =
      .error (NPError.valueError "Natural parameters should be positive") ∧
    ∀ g u phi, ∃ r, DirichletDistribution.compute_gradient S g u phi = .ok r := by
  constructor
  · rw [DirichletDistribution.compute_moments_and_cgf,
      if_pos (by simp [NPArray.anyEntry, NPArray.entries]; exact h)]
  · intro g u phi
    exact ⟨_, rfl⟩

/-- Witness for C9 (amended) at `phi = [[0, 2, 3]]`. -/
theorem eager_validation_amended_witness :
    DirichletDistribution.compute_moments_and_cgf idFns [NPArray.vec [0, 2, 3]] =
      .error (NPError.valueError "Natural parameters should be positive") ∧
    ∃ r, DirichletDistribution.compute_gradient idFns [] [] [] = .ok r := by
  have h := eager_validation_amended idFns [0, 2, 3] ⟨0, by simp, le_refl 0⟩
  exact ⟨h.1, h.2 [] [] []⟩

/-- Claim C10: in the store-passing embeddings of
`DirichletMoments.compute_fixed_moments` and
`DirichletDistribution.compute_fixed_moments_and_f`, the defensive
renormalization divides into a freshly allocated buffer, so the caller's
array `pid` holds the same value after the call as before it. -/
theorem compute_fixed_moments_no_mutation (S : SpecialFns) (s : Store)
    (pid : Nat) (h : pid < s.next) :
    (DirichletMoments.compute_fixed_moments_store S s pid).2.mem pid =
      s.mem pid ∧
    (DirichletDistribution.compute_fixed_moments_and_f_store S s pid).2.mem pid =
      s.mem pid := by
  have h1 : pid ≠ s.next := Nat.ne_of_lt h
  have h2 : pid ≠ s.next + 1 := by omega
  have h3 : pid ≠ s.next + 2 := by omega
  constructor
  · rw [DirichletMoments.compute_fixed_moments_store]
    dsimp only
    split
    · rfl
    · split
      · rfl
      · split
        · rfl
        · simp [Store.alloc, h1, h2]
  · rw [DirichletDistribution.compute_fixed_moments_and_f_store]
    dsimp only
    split
    · rfl
    · split
      · rfl
      · split
        · rfl
        · simp [Store.alloc, h1, h2, h3]

/-- Witness for C10 on a one-buffer store holding `[1]`. -/
theorem compute_fixed_moments_no_mutation_witness :
    (DirichletMoments.compute_fixed_moments_store idFns
        ⟨fun _ => NPArray.vec [1], 1⟩ 0).2.mem 0 = NPArray.vec [1] ∧
    (DirichletDistribution.compute_fixed_moments_and_f_store idFns
        ⟨fun _ => NPArray.vec [1], 1⟩ 0).2.mem 0 = NPArray.vec [1] := by
  have h := compute_fixed_moments_no_mutation idFns
    ⟨fun _ => NPArray.vec [1], 1⟩ 0 (by norm_num)
  exact ⟨h.1.trans rfl, h.2.trans rfl⟩

end BayesPy
